import Mathlib

/-!
Shallow embedding of the viewport / data-windowing core of finplot
(src/finplot/__init__.py), with theorems checking the specification
claims about it.  Machine floats are modelled by exact rationals (for
the grid / cache arithmetic) and by real numbers (for the y-range
formulas, which use real exponentiation).
-/

namespace Finplot

/-! ## Global constants (module-level constants in the source) -/

/-- `max_zoom_points = 20`: number of visible candles when maximum zoomed in. -/
def max_zoom_points : ℕ := 20

/-- `right_margin_candles = 5`: whitespace at the right-hand side. -/
def right_margin_candles : ℕ := 5

/-- `lod_candles = 3000`: level-of-detail decimation threshold. -/
def lod_candles : ℕ := 3000

/-- `cache_candle_factor = 3`: factor of extra candles rendered to the buffer. -/
def cache_candle_factor : ℚ := 3

/-! ## Python numeric primitives -/

/-- Python `int(q)`: truncation toward zero. -/
def pyInt (q : ℚ) : ℤ := if 0 ≤ q then ⌊q⌋ else ⌈q⌉

/-- Python `round(q)`: rounding half to even (banker's rounding). -/
def pyRound (q : ℚ) : ℤ :=
  if q - ⌊q⌋ = 1/2 then (if Even ⌊q⌋ then ⌊q⌋ else ⌊q⌋ + 1) else ⌊q + 1/2⌋

/-- `lerp = lambda t,a,b: t*b+(1-t)*a` (module-level helper in the source). -/
def lerp (t a b : ℚ) : ℚ := t*b + (1-t)*a

/-! ## Series Store (`PandasDataSource`) -/

/-- One row of the underlying dataframe; the first entry is the time column. -/
abbrev Row := List ℚ

/-- The five-tuple returned by `hilo`: `(t0, t1, highest, lowest, number of rows)`. -/
abbrev HiloTuple := ℚ × ℚ × ℚ × ℚ × ℕ

/-- The state of a `PandasDataSource` relevant to the windowing core:
the dataframe (a list of rows indexed by its `RangeIndex` position),
the scale-relevant column indices, the column offset of the value
columns, and the hi-lo LRU cache (an ordered association list, oldest
entry first, mirroring `OrderedDict` iteration order). -/
structure PandasDataSource where
  df : List Row
  scale_cols : List ℕ
  col_data_offset : ℕ
  cache_hilo : List ((ℤ × ℤ) × HiloTuple)

/-- `self.xlen = len(self.df) + right_margin_candles`. -/
def xlenQ (src : PandasDataSource) : ℚ := src.df.length + right_margin_candles

/-- `df.loc[x0:x1, :]` on a `RangeIndex 0..n-1`: the rows whose integer label
lies in the inclusive interval `[x0, x1]`, i.e. drop everything before
`max(x0,0)` and keep at most `x1 - max(x0,0) + 1` rows. -/
def sliceLoc (df : List Row) (x0 x1 : ℤ) : List Row :=
  (df.drop x0.toNat).take (x1 + 1 - (x0.toNat : ℤ)).toNat

/-- `PandasDataSource._hilo(x0, x1)`: slice `df.loc[x0:x1, :]`; an empty slice
returns the zero sentinel `(0,0,0,0,0)`; otherwise the first and last time
values, the max and min over the scale-relevant columns of the slice, and
the slice length. -/
def _hilo (src : PandasDataSource) (x0 x1 : ℤ) : HiloTuple :=
  let df := sliceLoc src.df x0 x1
  if df.isEmpty then (0, 0, 0, 0, 0)
  else
    let t0 := (df.headD []).headD 0
    let t1 := (df.getLastD []).headD 0
    let vals := (df.map (fun r => src.scale_cols.filterMap (fun c => r.get? c))).flatten
    let hi := match vals with | [] => 0 | v :: vs => vs.foldl max v
    let lo := match vals with | [] => 0 | v :: vs => vs.foldl min v
    (t0, t1, hi, lo, df.length)

/-- The canonical integer cache key computed at the top of
`PandasDataSource.hilo`: `if x0 == x1: x0 = x1 = int(x1)` else
`x0, x1 = int(x0+0.5), int(x1)`.  (The string key `"%i,%i" % (x0,x1)` is
modelled by the integer pair itself; the formatting is injective.) -/
def hiloKey (x0 x1 : ℚ) : ℤ × ℤ :=
  if x0 = x1 then (pyInt x1, pyInt x1) else (pyInt (x0 + 1/2), pyInt x1)

/-- `query in self.cache_hilo` / `self.cache_hilo[query]`: lookup in the
ordered association list. -/
def cacheLookup (k : ℤ × ℤ) : List ((ℤ × ℤ) × HiloTuple) → Option HiloTuple
  | [] => none
  | e :: rest => if e.1 = k then some e.2 else cacheLookup k rest

/-- `if len(self.cache_hilo) > 100: del self.cache_hilo[next(iter(self.cache_hilo))]`:
drop the oldest (first) entry when the cache exceeds 100 entries. -/
def cacheTrim (c : List ((ℤ × ℤ) × HiloTuple)) : List ((ℤ × ℤ) × HiloTuple) :=
  if 100 < c.length then c.drop 1 else c

/-- `PandasDataSource.hilo(x0, x1)`: canonicalize the range to the integer
key; on a cache miss compute `_hilo` and insert at the end; on a hit pop
the entry and re-insert it at the end (raising its priority); then trim
to 100 entries.  Returns the tuple and the updated store. -/
def hilo (src : PandasDataSource) (x0 x1 : ℚ) : HiloTuple × PandasDataSource :=
  let k := hiloKey x0 x1
  match cacheLookup k src.cache_hilo with
  | none =>
      let v := _hilo src k.1 k.2
      (v, { src with cache_hilo := cacheTrim (src.cache_hilo ++ [(k, v)]) })
  | some v =>
      (v, { src with cache_hilo :=
              cacheTrim ((src.cache_hilo.filter (fun e => e.1 ≠ k)) ++ [(k, v)]) })

/-- A cache all of whose entries agree with `_hilo` recomputed on the current
dataframe (no mutation has happened since the entries were inserted). -/
def cacheConsistent (src : PandasDataSource) : Prop :=
  ∀ e ∈ src.cache_hilo, e.2 = _hilo src e.1.1 e.1.2

/-! ## Y-Scale Transform (`YScale`) -/

/-- The two values of `YScale.scaletype` (`"linear"` / `"log"` in the source). -/
inductive ScaleType where
  | linear : ScaleType
  | log : ScaleType
deriving DecidableEq

/-- `YScale`: a scale type and a magnitude-compression factor `scalef`. -/
structure YScale where
  scaletype : ScaleType
  scalef : ℚ

/-- `YScale.invxform(y)`: `np.log10(y)` under log scale, else `y / scalef`.
The transcendental `np.log10` is taken as an uninterpreted parameter
`log10` of the embedding (no claim depends on its values). -/
def invxform (log10 : ℚ → ℚ) (ys : YScale) (y : ℚ) : ℚ :=
  if ys.scaletype = ScaleType.log then log10 y else y / ys.scalef

/-! ## Level-of-detail decimation (`PandasDataSource._rows` / `rows`) -/

/-- Python slicing `df.iloc[::k]`: every `k`-th row starting at row 0. -/
def everyNth (k : ℕ) : List Row → List Row
  | [] => []
  | x :: xs => x :: everyNth k (xs.drop (k - 1))
termination_by l => l.length
decreasing_by
  simp only [List.length_cons, List.length_drop]
  omega

/-- `PandasDataSource._rows(df, colcnt, yscale, lod)`: decimate by stride
`len(df)//lod_candles` when `lod` is set and the slice exceeds `lod_candles`
rows; select the time column plus `colcnt-1` value columns starting at
`col_data_offset`; apply the inverse y-scale transform to the value columns
when the transform is not the identity. -/
def _rows (log10 : ℚ → ℚ) (src : PandasDataSource) (df : List Row) (colcnt : ℕ)
    (yscale : YScale) (lod : Bool) : List Row :=
  let df := if lod ∧ lod_candles < df.length then everyNth (df.length / lod_candles) df else df
  let colcnt := colcnt - 1
  let colidxs := 0 :: (List.range colcnt).map (fun i => src.col_data_offset + i)
  let dfr := df.map (fun r => colidxs.filterMap (fun c => r.get? c))
  if yscale.scaletype = ScaleType.log ∨ yscale.scalef ≠ 1 then
    dfr.map (fun r =>
      match r with
      | [] => []
      | t :: vs => t :: vs.map (invxform log10 yscale))
  else dfr

/-- `PandasDataSource.rows(colcnt, x0, x1, yscale, lod)`: slice
`df.loc[x0:x1, :]`, return the decimated rows and the pre-decimation
length, threading the store state (the method writes no attribute of
`self`, so the store comes back unchanged). -/
def rows (log10 : ℚ → ℚ) (src : PandasDataSource) (colcnt : ℕ) (x0 x1 : ℤ)
    (yscale : YScale) (lod : Bool) : (List Row × ℕ) × PandasDataSource :=
  let df := sliceLoc src.df x0 x1
  ((_rows log10 src df colcnt yscale lod, df.length), src)

/-! ## Viewport Controller (`FinViewBox`) -/

/-- The `FinViewBox` state the y-zoom update reads: its data source, y-scale,
zoom scale and baseline, the autozoom flag, and the current `viewRect()`
(x-extent as exact grid rationals, y-extent as reals). -/
structure FinViewBox where
  datasrc : PandasDataSource
  yscale : YScale
  v_zoom_scale : ℝ
  v_zoom_baseline : ℝ
  v_autozoom : Bool
  vrLeft : ℚ
  vrRight : ℚ
  vrTop : ℝ
  vrBottom : ℝ

/-- `FinViewBox.zoom_rect(vr, scale_fact, center)`: scale both edges of the
visible x-range around the pivot `center.x()`. -/
def zoom_rect (vrLeft vrRight scale_fact centerx : ℚ) : ℚ × ℚ :=
  (centerx + (vrLeft - centerx) * scale_fact,
   centerx + (vrRight - centerx) * scale_fact)

/-- The "make edges rigid" block at the top of `FinViewBox.update_y_zoom`:
snap both edges to half-integer cell boundaries, carrying a clamped edge
over to the opposite side, with `xlen` the data length plus right margin. -/
def rigid_xrange (xlen x0 x1 : ℚ) : ℚ × ℚ :=
  let xl := max ((pyRound (x0 - 1/2) : ℚ) + 1/2) (-(1/2))
  let xr := min ((pyRound (x1 - 1/2) : ℚ) + 1/2) (xlen - 1/2)
  let dxl := xl - x0
  let dxr := xr - x1
  let x1 := if 0 < dxl then x1 + dxl else x1
  let x0 := if dxr < 0 then x0 + dxr else x0
  (max ((pyRound (x0 - 1/2) : ℚ) + 1/2) (-(1/2)),
   min ((pyRound (x1 - 1/2) : ℚ) + 1/2) (xlen - 1/2))

/-- The y-range computation at the bottom of `FinViewBox.update_y_zoom`
(after the skip checks), over real numbers; `^` is real exponentiation. -/
noncomputable def compute_y_range (scaletype : ScaleType)
    (v_zoom_scale v_zoom_baseline : ℝ) (hi lo : ℝ) : ℝ × ℝ :=
  if scaletype = ScaleType.log then
    let lo := max 1e-100 lo
    let rng := min ((hi / lo) ^ (1 / v_zoom_scale)) 1e50
    let base := (hi * lo) ^ v_zoom_baseline
    (base / rng ^ v_zoom_baseline, base * rng ^ (1 - v_zoom_baseline))
  else
    let rng := max ((hi - lo) / v_zoom_scale) 2e-7
    let base := (hi + lo) * v_zoom_baseline
    (base - rng * v_zoom_baseline, base + rng * (1 - v_zoom_baseline))

/-- `FinViewBox.update_y_zoom(x0, x1)`: make the edges rigid, query the hi-lo
cache, skip the update (`return`, modelled as `none`) when the visible row
count is below both the view rect width and `max_zoom_points`, otherwise
compute the y-range and produce the `(x0, y0, x1, y1)` handed to
`set_range`.  Also returns the data source with its updated hi-lo cache. -/
noncomputable def update_y_zoom (vb : FinViewBox) (x0 x1 : ℚ) :
    Option (ℚ × ℝ × ℚ × ℝ) × PandasDataSource :=
  let xx := rigid_xrange (xlenQ vb.datasrc) x0 x1
  let t := (hilo vb.datasrc xx.1 xx.2).1
  let src := (hilo vb.datasrc xx.1 xx.2).2
  let cnt := t.2.2.2.2
  if (cnt : ℚ) < vb.vrRight - vb.vrLeft ∧ cnt < max_zoom_points then (none, src)
  else
    let hi : ℝ := if vb.v_autozoom then (t.2.2.1 : ℝ) else vb.vrBottom
    let lo : ℝ := if vb.v_autozoom then (t.2.2.2.1 : ℝ) else vb.vrTop
    let y := compute_y_range vb.yscale.scaletype vb.v_zoom_scale vb.v_zoom_baseline hi lo
    (some (xx.1, y.1, xx.2, y.2), src)

/-! ## LOD Picture Cache (`FinPlotItem`) -/

/-- The x-extent of a `QRectF`: `left()` and `width()`; `right() = left() + width()`. -/
structure RectQ where
  left : ℚ
  width : ℚ

/-- The `FinPlotItem` state driving `update_dirty_picture`: the dirty flag,
the LOD flag, and the cached generation rectangle. -/
structure FinPlotItemState where
  dirty : Bool
  lod : Bool
  cachedRect : RectQ

/-- The regeneration condition of `FinPlotItem.update_dirty_picture`: dirty,
or (with LOD) the visible rect leaves the cached rect or its width falls
below the cached width divided by `cache_candle_factor`. -/
def regen_condition (it : FinPlotItemState) (visibleRect : RectQ) : Prop :=
  it.dirty = true ∨
    (it.lod = true ∧
      (visibleRect.left < it.cachedRect.left ∨
       it.cachedRect.left + it.cachedRect.width < visibleRect.left + visibleRect.width ∨
       visibleRect.width < it.cachedRect.width / cache_candle_factor))

instance (it : FinPlotItemState) (v : RectQ) : Decidable (regen_condition it v) := by
  unfold regen_condition; infer_instance

/-- `FinPlotItem._generate_picture(boundingRect)`: set the cached rect to
`QRectF(left - w, 0, cache_candle_factor*w, 0)` and clear the dirty flag
(the actual `generate_picture` drawing call belongs to the host renderer). -/
def _generate_picture (it : FinPlotItemState) (boundingRect : RectQ) : FinPlotItemState :=
  { it with
      cachedRect := ⟨boundingRect.left - boundingRect.width,
                     cache_candle_factor * boundingRect.width⟩,
      dirty := false }

/-- `FinPlotItem.update_dirty_picture(visibleRect)`: regenerate exactly when
the regeneration condition holds. -/
def update_dirty_picture (it : FinPlotItemState) (visibleRect : RectQ) : FinPlotItemState :=
  if regen_condition it visibleRect then _generate_picture it visibleRect else it

/-! ## Time/Index Mapper (`_pdtime2index`) -/

/-- The loop body of `_pdtime2index` for the first queried element (`i == 0`),
over an already epoch-normalized time column `xs` (the reference axis) and
one queried time `t`.  `none` models a raised exception (the failing
`assert t <= t0` for a time beyond the known range, or an out-of-range
label access); `some idx` is the appended fractional index. -/
def _pdtime2index_first (xs : List ℚ) (t : ℚ) : Option ℚ :=
  match (xs.enum.filter (fun p => t < p.2)).head? with
  | none =>
      -- xss is empty: t is at or beyond every known time
      match xs.getLast? with
      | none => none                    -- xs.iloc[-1] on an empty series raises
      | some t0 =>
          if t0 = t then some ((xs.length - 1 : ℕ) : ℚ)
          else none                     -- assert t <= t0 fails (t > t0 here)
  | some p =>
      let j : ℕ × ℕ := if (p.1 : ℤ) - 1 < 0 then (0, 1) else (p.1 - 1, p.1)
      match xs.get? j.1, xs.get? j.2 with
      | some t0, some t1 => some (lerp ((t - t0) / (t1 - t0)) (j.1 : ℚ) (j.2 : ℚ))
      | _, _ => none                    -- xs.loc[i1] beyond the series raises

/-! ## Concrete fixtures used by witnesses and counterexamples -/

/-- A three-row store (time column and one value column), empty cache. -/
def srcThree : PandasDataSource := ⟨[[0, 1], [1, 5], [2, 3]], [1], 1, []⟩

/-- A store whose cache already holds the key `(0,0)`. -/
def srcHit : PandasDataSource := ⟨[], [], 0, [((0, 0), (0, 0, 0, 0, 0))]⟩

/-- A store whose cache is full: 100 entries with keys `(i,i)`. -/
def srcFull : PandasDataSource :=
  ⟨[], [], 0, (List.range 100).map (fun i => (((i : ℤ), (i : ℤ)), (0, 0, 0, 0, 0)))⟩

/-- A 3001-row slice (one more row than the LOD threshold). -/
def df3001 : List Row := List.replicate 3001 [0, 0]

/-- A view box over the three-row store with a 50-unit-wide view rect. -/
noncomputable def vbSkip : FinViewBox :=
  ⟨srcThree, ⟨ScaleType.linear, 1⟩, 1, 1, true, 0, 50, 0, 1⟩

/-! ## Lemmas about the hi-lo cache operations -/

lemma cacheLookup_eq_none {k : ℤ × ℤ} {c : List ((ℤ × ℤ) × HiloTuple)} :
    cacheLookup k c = none ↔ ∀ e ∈ c, e.1 ≠ k := by
  induction c with
  | nil => simp [cacheLookup]
  | cons a t ih =>
      by_cases h : a.1 = k
      · simp [cacheLookup, h]
      · simp [cacheLookup, h, ih]

lemma cacheLookup_mem {k : ℤ × ℤ} {v : HiloTuple} {c : List ((ℤ × ℤ) × HiloTuple)}
    (h : cacheLookup k c = some v) : (k, v) ∈ c := by
  induction c with
  | nil => simp [cacheLookup] at h
  | cons a t ih =>
      by_cases ha : a.1 = k
      · rw [cacheLookup, if_pos ha] at h
        have hv : a.2 = v := by injection h
        have hkv : (k, v) = a := by rw [← ha, ← hv]
        rw [hkv]
        exact List.mem_cons_self a t
      · rw [cacheLookup, if_neg ha] at h
        exact List.mem_cons_of_mem a (ih h)

lemma cacheLookup_append_self {k : ℤ × ℤ} {v : HiloTuple}
    {l : List ((ℤ × ℤ) × HiloTuple)} (h : ∀ e ∈ l, e.1 ≠ k) :
    cacheLookup k (l ++ [(k, v)]) = some v := by
  induction l with
  | nil => simp [cacheLookup]
  | cons a t ih =>
      have ha := h a (List.mem_cons_self a t)
      rw [List.cons_append, cacheLookup, if_neg ha]
      exact ih (fun e he => h e (List.mem_cons_of_mem a he))

lemma cacheLookup_cacheTrim_append {k : ℤ × ℤ} {v : HiloTuple}
    {l : List ((ℤ × ℤ) × HiloTuple)} (h : ∀ e ∈ l, e.1 ≠ k) :
    cacheLookup k (cacheTrim (l ++ [(k, v)])) = some v := by
  unfold cacheTrim
  split
  · rename_i hlen
    cases l with
    | nil => simp at hlen
    | cons a t =>
        have hdrop : ((a :: t) ++ [(k, v)]).drop 1 = t ++ [(k, v)] := rfl
        rw [hdrop]
        exact cacheLookup_append_self (fun e he => h e (List.mem_cons_of_mem a he))
  · exact cacheLookup_append_self h

lemma getLast?_cacheTrim_append {e : (ℤ × ℤ) × HiloTuple}
    {l : List ((ℤ × ℤ) × HiloTuple)} :
    (cacheTrim (l ++ [e])).getLast? = some e := by
  unfold cacheTrim
  split
  · rename_i hlen
    cases l with
    | nil => simp at hlen
    | cons a t =>
        have hdrop : ((a :: t) ++ [e]).drop 1 = t ++ [e] := rfl
        rw [hdrop]
        exact List.getLast?_concat t
  · exact List.getLast?_concat l

lemma length_cacheTrim_le {c : List ((ℤ × ℤ) × HiloTuple)} (h : c.length ≤ 101) :
    (cacheTrim c).length ≤ 100 := by
  unfold cacheTrim
  split
  · rw [List.length_drop]
    omega
  · omega

lemma hilo_val_of_consistent (src : PandasDataSource) (hc : cacheConsistent src)
    (x0 x1 : ℚ) :
    (hilo src x0 x1).1 = _hilo src (hiloKey x0 x1).1 (hiloKey x0 x1).2 := by
  rcases h : cacheLookup (hiloKey x0 x1) src.cache_hilo with _ | v
  · simp [hilo, h]
  · have hv := hc _ (cacheLookup_mem h)
    simp only [hilo, h]
    exact hv

lemma hilo_fst_of_lookup {src : PandasDataSource} {x0 x1 : ℚ} {v : HiloTuple}
    (h : cacheLookup (hiloKey x0 x1) src.cache_hilo = some v) :
    (hilo src x0 x1).1 = v := by
  simp only [hilo, h]

lemma hilo_lookup_after (src : PandasDataSource) (x0 x1 : ℚ) :
    cacheLookup (hiloKey x0 x1) (hilo src x0 x1).2.cache_hilo =
      some ((hilo src x0 x1).1) := by
  rcases h : cacheLookup (hiloKey x0 x1) src.cache_hilo with _ | v
  · have hk := cacheLookup_eq_none.mp h
    simp only [hilo, h]
    exact cacheLookup_cacheTrim_append hk
  · have hk : ∀ e ∈ src.cache_hilo.filter (fun e => e.1 ≠ hiloKey x0 x1),
        e.1 ≠ hiloKey x0 x1 := by
      intro e he
      exact of_decide_eq_true (List.mem_filter.mp he).2
    simp only [hilo, h]
    exact cacheLookup_cacheTrim_append hk

lemma sliceLoc_length (df : List Row) (x0 x1 : ℤ) :
    (sliceLoc df x0 x1).length =
      min (x1 + 1 - (x0.toNat : ℤ)).toNat (df.length - x0.toNat) := by
  simp [sliceLoc]

lemma _hilo_count (src : PandasDataSource) (x0 x1 : ℤ) :
    (_hilo src x0 x1).2.2.2.2 = (sliceLoc src.df x0 x1).length := by
  unfold _hilo
  dsimp only
  split <;> rename_i h
  · simp [List.isEmpty_iff.mp h]
  · rfl

lemma _hilo_of_empty (src : PandasDataSource) (x0 x1 : ℤ)
    (h : sliceLoc src.df x0 x1 = []) : _hilo src x0 x1 = (0, 0, 0, 0, 0) := by
  unfold _hilo
  rw [if_pos (List.isEmpty_iff.mpr h)]

lemma pyInt_natCast (n : ℕ) : pyInt (n : ℚ) = n := by
  rw [pyInt, if_pos (by positivity)]
  exact Int.floor_natCast n

lemma pyInt_natCast_add_half (n : ℕ) : pyInt ((n : ℚ) + 1/2) = n := by
  rw [pyInt, if_pos (by positivity)]
  have h2 : ⌊(1/2 : ℚ)⌋ = 0 := by
    rw [Int.floor_eq_zero_iff]
    constructor <;> norm_num
  have := Int.floor_int_add (α := ℚ) (n : ℤ) (1/2)
  rw [h2, add_zero] at this
  simpa using this

lemma hiloKey_natCast (a b : ℕ) : hiloKey (a : ℚ) (b : ℚ) = ((a : ℤ), (b : ℤ)) := by
  unfold hiloKey
  split <;> rename_i h
  · have hab : a = b := by exact_mod_cast h
    subst hab
    simp [pyInt_natCast]
  · rw [pyInt_natCast_add_half, pyInt_natCast]

/-! ## Lemmas about decimation -/

lemma everyNth_length (k : ℕ) (hk : 1 ≤ k) (l : List Row) :
    (everyNth k l).length = (l.length + k - 1) / k := by
  induction l using everyNth.induct k with
  | case1 =>
      rw [everyNth]
      simp only [List.length_nil, Nat.zero_add]
      rw [Nat.div_eq_of_lt (by omega)]
  | case2 x xs ih =>
      rw [everyNth]
      simp only [List.length_cons, ih, List.length_drop]
      rcases Nat.lt_or_ge xs.length (k - 1) with hm | hm
      · have h1 : xs.length - (k - 1) + k - 1 = k - 1 := by omega
        have h2 : xs.length + 1 + k - 1 = xs.length + k := by omega
        rw [h1, h2, Nat.div_eq_of_lt (by omega), Nat.add_div_right _ (by omega),
          Nat.div_eq_of_lt (by omega)]
      · have h1 : xs.length - (k - 1) + k - 1 = xs.length := by omega
        have h2 : xs.length + 1 + k - 1 = xs.length + k := by omega
        rw [h1, h2, Nat.add_div_right _ (by omega)]

lemma _rows_length (log10 : ℚ → ℚ) (src : PandasDataSource) (df : List Row)
    (colcnt : ℕ) (ys : YScale) (lod : Bool) :
    (_rows log10 src df colcnt ys lod).length =
      (if lod ∧ lod_candles < df.length then everyNth (df.length / lod_candles) df
       else df).length := by
  unfold _rows
  dsimp only
  split <;> simp [List.length_map]

/-! ## Claim theorems -/

/-- C1: For every non-empty row range `[a,b]` of a store (with a cache whose
entries agree with the current dataframe), `hilo(a,b)` returns a count equal
to `b-a+1` clipped to the data length, and re-querying the identical range
with no intervening data mutation returns the identical five-tuple. -/
theorem hilo_count_clipped_and_requery_stable (src : PandasDataSource)
    (hc : cacheConsistent src) (a b : ℕ) (hab : a ≤ b) (hb : b < src.df.length) :
    (hilo src (a : ℚ) (b : ℚ)).1.2.2.2.2 = min (b - a + 1) src.df.length ∧
    (hilo (hilo src (a : ℚ) (b : ℚ)).2 (a : ℚ) (b : ℚ)).1 = (hilo src (a : ℚ) (b : ℚ)).1 := by
  constructor
  · have hval := hilo_val_of_consistent src hc (a : ℚ) (b : ℚ)
    rw [hval, hiloKey_natCast, _hilo_count, sliceLoc_length]
    have h1 : ((a : ℤ)).toNat = a := Int.toNat_natCast a
    rw [h1]
    have h2 : ((b : ℤ) + 1 - ((a : ℕ) : ℤ)).toNat = b + 1 - a := by omega
    rw [h2]
    omega
  · exact hilo_fst_of_lookup (hilo_lookup_after src (a : ℚ) (b : ℚ))

/-- Witness for C1 at the three-row store, range `[1,2]`. -/
theorem hilo_count_clipped_and_requery_stable_witness :
    cacheConsistent srcThree ∧ 1 ≤ 2 ∧ 2 < srcThree.df.length ∧
    ((hilo srcThree (1 : ℚ) (2 : ℚ)).1.2.2.2.2 = min (2 - 1 + 1) srcThree.df.length ∧
     (hilo (hilo srcThree (1 : ℚ) (2 : ℚ)).2 (1 : ℚ) (2 : ℚ)).1 =
       (hilo srcThree (1 : ℚ) (2 : ℚ)).1) :=
  ⟨fun e he => by simp [srcThree] at he, by omega, by decide,
   hilo_count_clipped_and_requery_stable srcThree
     (fun e he => by simp [srcThree] at he) 1 2 (by omega) (by decide)⟩

/-- C2: After a hilo query the cache holds at most 100 entries (given it did
before); a query whose canonical key is cached promotes that entry to
most-recently-used (it becomes the last entry); inserting into a full
100-entry cache evicts exactly the oldest (first) entry. -/
theorem hilo_cache_lru_bound_promote_evict (src : PandasDataSource) (x0 x1 : ℚ) :
    (src.cache_hilo.length ≤ 100 → (hilo src x0 x1).2.cache_hilo.length ≤ 100) ∧
    (∀ v, cacheLookup (hiloKey x0 x1) src.cache_hilo = some v →
      (hilo src x0 x1).2.cache_hilo.getLast? = some (hiloKey x0 x1, v)) ∧
    (src.cache_hilo.length = 100 →
      cacheLookup (hiloKey x0 x1) src.cache_hilo = none →
      (hilo src x0 x1).2.cache_hilo =
        src.cache_hilo.drop 1 ++
          [(hiloKey x0 x1, _hilo src (hiloKey x0 x1).1 (hiloKey x0 x1).2)]) := by
  refine ⟨?_, ?_, ?_⟩
  · intro hlen
    rcases h : cacheLookup (hiloKey x0 x1) src.cache_hilo with _ | v
    · simp only [hilo, h]
      apply length_cacheTrim_le
      rw [List.length_append]
      simp only [List.length_cons, List.length_nil]
      omega
    · simp only [hilo, h]
      apply length_cacheTrim_le
      rw [List.length_append]
      have := List.length_filter_le (fun e => decide (e.1 ≠ hiloKey x0 x1)) src.cache_hilo
      simp only [List.length_cons, List.length_nil]
      omega
  · intro v h
    simp only [hilo, h]
    exact getLast?_cacheTrim_append
  · intro hlen h
    simp only [hilo, h]
    unfold cacheTrim
    rw [if_pos (by rw [List.length_append]; simp; omega)]
    rw [List.drop_append_of_le_length (by omega)]

/-- Witness for C2: the bound and the promotion at a one-entry cache, the
eviction at a full 100-entry cache with the fresh key `(200,200)`. -/
theorem hilo_cache_lru_bound_promote_evict_witness :
    (srcHit.cache_hilo.length ≤ 100 ∧ (hilo srcHit 0 0).2.cache_hilo.length ≤ 100) ∧
    (cacheLookup (hiloKey 0 0) srcHit.cache_hilo = some (0, 0, 0, 0, 0) ∧
     (hilo srcHit 0 0).2.cache_hilo.getLast? = some (hiloKey 0 0, (0, 0, 0, 0, 0))) ∧
    (srcFull.cache_hilo.length = 100 ∧
     cacheLookup (hiloKey 200 200) srcFull.cache_hilo = none ∧
     (hilo srcFull 200 200).2.cache_hilo =
       srcFull.cache_hilo.drop 1 ++
         [(hiloKey 200 200, _hilo srcFull (hiloKey 200 200).1 (hiloKey 200 200).2)]) :=
  ⟨⟨by decide, (hilo_cache_lru_bound_promote_evict srcHit 0 0).1 (by decide)⟩,
   ⟨by decide, (hilo_cache_lru_bound_promote_evict srcHit 0 0).2.1 _ (by decide)⟩,
   ⟨by decide, by decide,
    (hilo_cache_lru_bound_promote_evict srcFull 200 200).2.2 (by decide) (by decide)⟩⟩

/-- C8: A hilo query over an empty or out-of-bounds row range (one whose
`df.loc` slice selects no rows) returns the zero-sentinel tuple
`(0,0,0,0,0)`; the operation is total, it never raises. -/
theorem hilo_empty_range_zero_sentinel (src : PandasDataSource)
    (hc : cacheConsistent src) (x0 x1 : ℚ)
    (h : sliceLoc src.df (hiloKey x0 x1).1 (hiloKey x0 x1).2 = []) :
    (hilo src x0 x1).1 = (0, 0, 0, 0, 0) := by
  rw [hilo_val_of_consistent src hc]
  exact _hilo_of_empty src _ _ h

/-- Witness for C8: the out-of-range query `hilo(10, 10)` on the three-row
store returns the zero sentinel. -/
theorem hilo_empty_range_zero_sentinel_witness :
    cacheConsistent srcThree ∧
    sliceLoc srcThree.df (hiloKey 10 10).1 (hiloKey 10 10).2 = [] ∧
    (hilo srcThree 10 10).1 = (0, 0, 0, 0, 0) :=
  ⟨fun e he => by simp [srcThree] at he, by decide,
   hilo_empty_range_zero_sentinel srcThree (fun e he => by simp [srcThree] at he)
     10 10 (by decide)⟩

/-- C10: The read-only queries never mutate the store table: `hilo` touches
only the LRU cache, leaving the dataframe and the scale columns unchanged,
and `rows` hands back the store exactly as it received it. -/
theorem hilo_rows_preserve_dataframe (src : PandasDataSource) (x0 x1 : ℚ)
    (log10 : ℚ → ℚ) (colcnt : ℕ) (a b : ℤ) (ys : YScale) (lod : Bool) :
    (hilo src x0 x1).2.df = src.df ∧
    (hilo src x0 x1).2.scale_cols = src.scale_cols ∧
    (rows log10 src colcnt a b ys lod).2 = src := by
  rcases h : cacheLookup (hiloKey x0 x1) src.cache_hilo with _ | v <;>
    simp [hilo, rows, h]

/-- C3 counterexample: a 3001-row slice exceeds the LOD threshold, yet the
decimated output still has 3001 rows (the stride `3001 // 3000` is 1), so
the output row count is not bounded by the threshold as claimed. -/
theorem rows_decimation_counterexample :
    lod_candles < df3001.length ∧
    ¬ (_rows (fun q => q) srcThree df3001 2 ⟨ScaleType.linear, 1⟩ true).length ≤ lod_candles := by
  have hlen : df3001.length = 3001 := by
    simp only [df3001, List.length_replicate]
  have hq : df3001.length / lod_candles = 1 := by rw [hlen]; norm_num [lod_candles]
  constructor
  · rw [hlen]; norm_num [lod_candles]
  · rw [_rows_length, if_pos ⟨rfl, by rw [hlen]; norm_num [lod_candles]⟩, hq,
      everyNth_length 1 le_rfl, hlen]
    norm_num [lod_candles]

/-- C3 (amended): the decimated output of `_rows` has at most
`2*lod_candles - 1` rows whenever the input slice exceeds the threshold
(the integer stride `len // lod_candles` leaves up to just under twice the
threshold), and exactly the input length otherwise. -/
theorem rows_decimation_bounds (log10 : ℚ → ℚ) (src : PandasDataSource)
    (df : List Row) (colcnt : ℕ) (ys : YScale) :
    (lod_candles < df.length →
      (_rows log10 src df colcnt ys true).length ≤ 2 * lod_candles - 1) ∧
    (df.length ≤ lod_candles →
      (_rows log10 src df colcnt ys true).length = df.length) := by
  constructor
  · intro h
    rw [_rows_length, if_pos ⟨rfl, h⟩]
    have hlod : lod_candles = 3000 := rfl
    rw [hlod] at h ⊢
    set n := df.length with hn
    have hq : 1 ≤ n / 3000 := (Nat.one_le_div_iff (by norm_num)).mpr (le_of_lt h)
    rw [everyNth_length _ hq]
    have h1 := Nat.div_add_mod n 3000
    have h2 := Nat.mod_lt n (by norm_num : 0 < 3000)
    set q := n / 3000 with hqdef
    have h3 : n + q - 1 ≤ 6000 * q - 1 := by omega
    have h4 : (6000 * q - 1) / q = 5999 := by
      have he : 6000 * q - 1 = (q - 1) + 5999 * q := by omega
      rw [he, Nat.add_mul_div_right _ _ (by omega : 0 < q),
        Nat.div_eq_of_lt (by omega)]
    calc (n + q - 1) / q ≤ (6000 * q - 1) / q := Nat.div_le_div_right h3
      _ = 5999 := h4
      _ ≤ 2 * 3000 - 1 := by norm_num
  · intro h
    rw [_rows_length, if_neg (by simp; omega)]

/-- C7 counterexample: `_pdtime2index` applied to a time strictly before the
earliest known sample (0, against the axis `[10, 20]`) does not fail: it
silently extrapolates through the first two samples and returns the
fractional index `-1`. -/
theorem pdtime2index_before_earliest_counterexample :
    (0 : ℚ) < 10 ∧ _pdtime2index_first [10, 20] (0 : ℚ) = some (-1) := by
  constructor
  · norm_num
  · norm_num [_pdtime2index_first, List.enum, List.enumFrom, lerp]

/-- C7 (amended): it is a time strictly beyond the LAST known sample (as the
first queried element) that fails fast, via the failing
`assert t <= t0` ("must plot this primitive in prior time-range"); a time
equal to the last known time returns the last index. A time before the
earliest sample is instead silently extrapolated (see the counterexample). -/
theorem pdtime2index_beyond_range (xs : List ℚ) (t : ℚ) (hne : xs ≠ [])
    (hall : ∀ x ∈ xs, x ≤ t) :
    (xs.getLastD 0 = t →
      _pdtime2index_first xs t = some ((xs.length - 1 : ℕ) : ℚ)) ∧
    (xs.getLastD 0 ≠ t → _pdtime2index_first xs t = none) := by
  have hmem : ∀ p ∈ xs.enum, p.2 ∈ xs := by
    intro p hp
    have hsnd := List.enum_map_snd xs
    rw [← hsnd]
    exact List.mem_map_of_mem _ hp
  have hfilter : xs.enum.filter (fun p => decide (t < p.2)) = [] := by
    rw [List.filter_eq_nil_iff]
    intro p hp
    simp only [decide_eq_true_eq, not_lt]
    exact hall _ (hmem p hp)
  rcases hy : xs.getLast? with _ | y
  · exact absurd (List.getLast?_eq_none_iff.mp hy) hne
  · have hD : xs.getLastD 0 = y := by
      rw [List.getLastD_eq_getLast?, hy]
      rfl
    constructor
    · intro ht
      rw [hD] at ht
      unfold _pdtime2index_first
      rw [hfilter]
      simp [List.head?_nil, hy, ht]
    · intro ht
      rw [hD] at ht
      unfold _pdtime2index_first
      rw [hfilter]
      simp only [List.head?_nil, hy]
      rw [if_neg ht]

/-- Witness for C7 (amended): on the axis `[10, 20]`, querying `t = 20`
returns the last index 1 and querying `t = 25` fails. -/
theorem pdtime2index_beyond_range_witness :
    (([10, 20] : List ℚ) ≠ [] ∧ (∀ x ∈ ([10, 20] : List ℚ), x ≤ 20) ∧
      _pdtime2index_first [10, 20] 20 = some (((2 : ℕ) - 1 : ℕ) : ℚ)) ∧
    (([10, 20] : List ℚ) ≠ [] ∧ (∀ x ∈ ([10, 20] : List ℚ), x ≤ 25) ∧
      _pdtime2index_first [10, 20] 25 = none) :=
  ⟨⟨by simp, by norm_num,
    (pdtime2index_beyond_range [10, 20] 20 (by simp) (by norm_num)).1 rfl⟩,
   ⟨by simp, by norm_num,
    (pdtime2index_beyond_range [10, 20] 25 (by simp) (by norm_num)).2
      (by norm_num [List.getLastD])⟩⟩

/-- C9: when the visible row count is below both the current view rect width
and `max_zoom_points`, `update_y_zoom` skips the update: it returns before
reaching `set_range` (modelled as `none`), so neither the X-range nor the
Y-range of the viewport is changed by the call. -/
theorem update_y_zoom_skip (vb : FinViewBox) (x0 x1 : ℚ)
    (h1 : (((hilo vb.datasrc (rigid_xrange (xlenQ vb.datasrc) x0 x1).1
        (rigid_xrange (xlenQ vb.datasrc) x0 x1).2).1.2.2.2.2 : ℚ) <
        vb.vrRight - vb.vrLeft))
    (h2 : (hilo vb.datasrc (rigid_xrange (xlenQ vb.datasrc) x0 x1).1
        (rigid_xrange (xlenQ vb.datasrc) x0 x1).2).1.2.2.2.2 < max_zoom_points) :
    (update_y_zoom vb x0 x1).1 = none := by
  unfold update_y_zoom
  dsimp only
  rw [if_pos ⟨h1, h2⟩]

/-- Witness for C9: on the three-row store with a 50-wide view rect, the
query `update_y_zoom(0, 1)` sees only 2 visible rows (below the width and
below `max_zoom_points = 20`) and is skipped. -/
theorem update_y_zoom_skip_witness :
    ((((hilo (vbSkip).datasrc (rigid_xrange (xlenQ (vbSkip).datasrc) 0 1).1
        (rigid_xrange (xlenQ (vbSkip).datasrc) 0 1).2).1.2.2.2.2 : ℚ) <
        (vbSkip).vrRight - (vbSkip).vrLeft) ∧
     ((hilo (vbSkip).datasrc (rigid_xrange (xlenQ (vbSkip).datasrc) 0 1).1
        (rigid_xrange (xlenQ (vbSkip).datasrc) 0 1).2).1.2.2.2.2 < max_zoom_points)) ∧
    (update_y_zoom vbSkip 0 1).1 = none := by
  have hcons : cacheConsistent srcThree := fun e he => by simp [srcThree] at he
  have hr : rigid_xrange (xlenQ vbSkip.datasrc) 0 1 = (-(1/2), 3/2) := by
    norm_num [rigid_xrange, xlenQ, vbSkip, srcThree, right_margin_candles, pyRound]
  have hkey : hiloKey (-(1/2) : ℚ) (3/2) = (0, 1) := by
    norm_num [hiloKey, pyInt]
  have hcnt : (hilo vbSkip.datasrc (rigid_xrange (xlenQ vbSkip.datasrc) 0 1).1
      (rigid_xrange (xlenQ vbSkip.datasrc) 0 1).2).1.2.2.2.2 = 2 := by
    rw [hr]
    show (hilo srcThree (-(1/2)) (3/2)).1.2.2.2.2 = 2
    rw [hilo_val_of_consistent srcThree hcons, hkey, _hilo_count]
    decide
  refine ⟨⟨?_, ?_⟩, update_y_zoom_skip vbSkip 0 1 ?_ ?_⟩
  · rw [hcnt]
    norm_num [vbSkip]
  · rw [hcnt]
    norm_num [max_zoom_points]
  · rw [hcnt]
    norm_num [vbSkip]
  · rw [hcnt]
    norm_num [max_zoom_points]

/-- C4: the y-range computed by `update_y_zoom` (when the update is not
skipped): under log scale both bounds are strictly positive (the low bound
is floored to 1e-100 and the ratio range clamped to 1e50; the data high is
positive, as log scale presumes); under linear scale the width `y1 - y0`
equals the clamped range and hence never falls below the 2e-7 floor, with
`y0 = center - baseline*range`, `y1 = center + (1-baseline)*range` around
`center = (hi+lo)*baseline`. -/
theorem compute_y_range_bounds (zs b hi lo : ℝ) :
    (0 < hi →
      0 < (compute_y_range ScaleType.log zs b hi lo).1 ∧
      0 < (compute_y_range ScaleType.log zs b hi lo).2) ∧
    ((compute_y_range ScaleType.linear zs b hi lo).2 -
        (compute_y_range ScaleType.linear zs b hi lo).1 =
        max ((hi - lo) / zs) 2e-7 ∧
      2e-7 ≤ (compute_y_range ScaleType.linear zs b hi lo).2 -
        (compute_y_range ScaleType.linear zs b hi lo).1 ∧
      (compute_y_range ScaleType.linear zs b hi lo).1 =
        (hi + lo) * b - max ((hi - lo) / zs) 2e-7 * b ∧
      (compute_y_range ScaleType.linear zs b hi lo).2 =
        (hi + lo) * b + max ((hi - lo) / zs) 2e-7 * (1 - b)) := by
  constructor
  · intro hhi
    have hlo : (0 : ℝ) < max 1e-100 lo := lt_max_iff.mpr (Or.inl (by norm_num))
    have hdiv : 0 < hi / max 1e-100 lo := div_pos hhi hlo
    have hrng : 0 < min ((hi / max 1e-100 lo) ^ (1 / zs)) 1e50 :=
      lt_min (Real.rpow_pos_of_pos hdiv _) (by norm_num)
    have hbase : 0 < (hi * max 1e-100 lo) ^ b :=
      Real.rpow_pos_of_pos (mul_pos hhi hlo) b
    unfold compute_y_range
    rw [if_pos rfl]
    exact ⟨div_pos hbase (Real.rpow_pos_of_pos hrng b),
      mul_pos hbase (Real.rpow_pos_of_pos hrng _)⟩
  · unfold compute_y_range
    rw [if_neg (by simp)]
    refine ⟨by ring, ?_, by ring, by ring⟩
    have : (hi + lo) * b + max ((hi - lo) / zs) 2e-7 * (1 - b) -
        ((hi + lo) * b - max ((hi - lo) / zs) 2e-7 * b) =
        max ((hi - lo) / zs) 2e-7 := by ring
    rw [this]
    exact le_max_right _ _

/-- Witness for C4 at `zoomscale = 1`, `baseline = 1`, `hi = 2`, `lo = 1`. -/
theorem compute_y_range_bounds_witness :
    0 < (2 : ℝ) ∧
    (0 < (compute_y_range ScaleType.log 1 1 2 1).1 ∧
     0 < (compute_y_range ScaleType.log 1 1 2 1).2) :=
  ⟨by norm_num, (compute_y_range_bounds 1 1 2 1).1 (by norm_num)⟩

/-- C5: the LOD picture buffer is regenerated exactly when the item is dirty
or (with LOD) the visible range leaves the cached range or its width drops
below a third of the cached width; regeneration re-centers the cached rect
to `[left - w, left - w + 3w]` and clears the dirty flag; otherwise the
item state is untouched. -/
theorem update_dirty_picture_spec (it : FinPlotItemState) (v : RectQ) :
    (regen_condition it v →
      update_dirty_picture it v =
        { dirty := false, lod := it.lod,
          cachedRect := ⟨v.left - v.width, 3 * v.width⟩ }) ∧
    (¬ regen_condition it v → update_dirty_picture it v = it) := by
  constructor
  · intro h
    rw [update_dirty_picture, if_pos h]
    rfl
  · intro h
    rw [update_dirty_picture, if_neg h]

/-- Witness for C5: a dirty item is regenerated around the visible rect
`[2,6]` to the cached rect `[-2, 10]`; a clean LOD item whose visible rect
sits inside its cached rect with comparable width is left untouched. -/
theorem update_dirty_picture_spec_witness :
    (regen_condition ⟨true, true, ⟨0, 1⟩⟩ ⟨2, 4⟩ ∧
      update_dirty_picture ⟨true, true, ⟨0, 1⟩⟩ ⟨2, 4⟩ =
        { dirty := false, lod := true, cachedRect := ⟨2 - 4, 3 * 4⟩ }) ∧
    (¬ regen_condition ⟨false, true, ⟨0, 12⟩⟩ ⟨2, 6⟩ ∧
      update_dirty_picture ⟨false, true, ⟨0, 12⟩⟩ ⟨2, 6⟩ = ⟨false, true, ⟨0, 12⟩⟩) :=
  ⟨⟨by decide,
    (update_dirty_picture_spec ⟨true, true, ⟨0, 1⟩⟩ ⟨2, 4⟩).1 (by decide)⟩,
   ⟨by norm_num [regen_condition, cache_candle_factor],
    (update_dirty_picture_spec ⟨false, true, ⟨0, 12⟩⟩ ⟨2, 6⟩).2
      (by norm_num [regen_condition, cache_candle_factor])⟩⟩

/-- C6 counterexample: with the rigid-edge snapping that `update_y_zoom`
applies to every range handed to `set_range`, zooming the 101-candle view
`[-0.5, 100.5]` by `s = 11/20` at pivot `-0.5` and then zooming by `20/11`
at the same pivot yields `[-0.5, 101.5]`, one whole cell away from the
original range, far beyond the 1e-6 tolerance (data length 1000, so
`xlen = 1005`; neither step is skipped, both counts exceed 20). -/
theorem zoom_inverse_counterexample :
    1/1000000 <
      |(rigid_xrange 1005
          (zoom_rect
            (rigid_xrange 1005
              (zoom_rect (-(1/2)) (201/2) (11/20) (-(1/2))).1
              (zoom_rect (-(1/2)) (201/2) (11/20) (-(1/2))).2).1
            (rigid_xrange 1005
              (zoom_rect (-(1/2)) (201/2) (11/20) (-(1/2))).1
              (zoom_rect (-(1/2)) (201/2) (11/20) (-(1/2))).2).2
            (1/(11/20)) (-(1/2))).1
          (zoom_rect
            (rigid_xrange 1005
              (zoom_rect (-(1/2)) (201/2) (11/20) (-(1/2))).1
              (zoom_rect (-(1/2)) (201/2) (11/20) (-(1/2))).2).1
            (rigid_xrange 1005
              (zoom_rect (-(1/2)) (201/2) (11/20) (-(1/2))).1
              (zoom_rect (-(1/2)) (201/2) (11/20) (-(1/2))).2).2
            (1/(11/20)) (-(1/2))).2).2 - 201/2| := by
  norm_num [rigid_xrange, zoom_rect, pyRound]

/-- C6 (amended): the pure zoom transformation of `zoom_rect` (the scaling
of the visible range about the pivot, before the rigid-edge grid snapping
of `update_y_zoom`) composed with the reciprocal zoom at the same pivot is
exactly the identity on the visible range, hence within any tolerance. -/
theorem zoom_inverse_identity (l r c s : ℚ) (hs : s ≠ 0) :
    zoom_rect (zoom_rect l r s c).1 (zoom_rect l r s c).2 (1/s) c = (l, r) := by
  unfold zoom_rect
  field_simp

/-- Witness for C6 (amended): zoom by 2 then by 1/2 about pivot 5. -/
theorem zoom_inverse_identity_witness :
    (2 : ℚ) ≠ 0 ∧
    zoom_rect (zoom_rect 0 10 2 5).1 (zoom_rect 0 10 2 5).2 (1/2) 5 = (0, 10) :=
  ⟨by norm_num, zoom_inverse_identity 0 10 5 2 (by norm_num)⟩

/-- Witness for C3 (amended): the 3001-row slice stays within the 5999
bound; a three-row slice is returned undecimated. -/
theorem rows_decimation_bounds_witness :
    (lod_candles < df3001.length ∧
      (_rows (fun q => q) srcThree df3001 2 ⟨ScaleType.linear, 1⟩ true).length ≤
        2 * lod_candles - 1) ∧
    (srcThree.df.length ≤ lod_candles ∧
      (_rows (fun q => q) srcThree srcThree.df 2 ⟨ScaleType.linear, 1⟩ true).length =
        srcThree.df.length) :=
  ⟨⟨by simp only [df3001, List.length_replicate, lod_candles]; norm_num,
    (rows_decimation_bounds (fun q => q) srcThree df3001 2 ⟨ScaleType.linear, 1⟩).1
      (by simp only [df3001, List.length_replicate, lod_candles]; norm_num)⟩,
   ⟨by simp [srcThree, lod_candles],
    (rows_decimation_bounds (fun q => q) srcThree srcThree.df 2 ⟨ScaleType.linear, 1⟩).2
      (by simp [srcThree, lod_candles])⟩⟩

end Finplot
